import Mathlib

/-
Verification of the batched audio-result persistence component
(`AudioProcessing` in `audio_processing.py`).

The embedding models:
  * `good_response`   — the status-code check `res['code'] == 200`; a payload
    without a code key is modelled with `code = none`, and subscripting it
    raises `KeyError`;
  * `put_dynamodb`    — timestamp split, request-item construction, and the
    batched write loop with re-queueing of store-reported unprocessed items
    (`putLoop`, fuel-indexed since the source loop has no iteration cap);
  * `__call__`        — the top-level control flow (`audioCall`), recorded as
    an ordered event trace plus an outcome (normal return, raised Python
    exception, or divergence of the write loop).

The store's behaviour is a parameter `oracle : Nat → List α → List α`
mapping the index of a batch-write call and the submitted batch to the
items the store reports as unprocessed.  The external value renderings
`species[0]` and `str(round(score, 4))` stay abstract parameters
(`species0`, `scoreStr`): the claims under proof do not depend on them.
-/

/-- Python exception kinds raised by the modelled code paths. -/
inductive PyErr where
  | keyError
  | valueError
deriving DecidableEq

/-- Parsed classifier (lambda) response: `code` is `none` when the payload
has no status-code entry, and `top_results` lists the
(index, species-value, raw-score) triples.  Species values and raw scores
keep abstract types `τ` and `σ`. -/
structure Response (τ σ : Type) where
  code : Option Int
  top_results : List (Nat × τ × σ)

/-- One DynamoDB put-request item as built by `put_dynamodb`; attribute
values are modelled as plain character lists. -/
structure Item where
  species : List Char
  time : List Char
  score : List Char
deriving DecidableEq

/-- Model of the Python two-argument-free `split('.')`: the pieces of the
character list between the dot characters, one piece more than the number
of dots, empty pieces included. -/
def splitDot : List Char → List (List Char)
  | [] => [[]]
  | c :: rest =>
    if c = '.' then [] :: splitDot rest
    else
      match splitDot rest with
      | [] => [[c]]
      | p :: ps => (c :: p) :: ps

/-- Model of `AudioProcessing.good_response`: evaluate `res['code'] == 200`,
raising `KeyError` when the response carries no code entry. -/
def good_response (res : Response τ σ) : Except PyErr Bool :=
  match res.code with
  | none => .error .keyError
  | some c => .ok (c == 200)

/-- Model of the item built at lines 86–90 of the source:
`species[0]` and `str(round(score, 4))` enter through the abstract
rendering parameters. -/
def mkRequestItem (species0 : τ → List Char) (scoreStr : σ → List Char)
    (tsec : List Char) (e : Nat × τ × σ) : Item :=
  { species := species0 e.2.1, time := tsec, score := scoreStr e.2.2 }

/-- All request items derived from one classifier response; every item
carries the same truncated timestamp `tsec`. -/
def requestItemsOf (species0 : τ → List Char) (scoreStr : σ → List Char)
    (res : Response τ σ) (tsec : List Char) : List Item :=
  res.top_results.map (mkRequestItem species0 scoreStr tsec)

/-- Queue after one iteration of the write loop: the first up-to-25 items
are removed as the current batch and the store-reported unprocessed items
are appended at the tail (`request_items.extend(unprocessed_items)`). -/
def nextQueue (oracle : Nat → List α → List α) (k : Nat) (q : List α) :
    List α :=
  q.drop 25 ++ oracle k (q.take 25)

/-- Fuel-indexed model of the `while len(request_items) > 0` loop of
`put_dynamodb`.  `k` counts the batch-write calls issued so far; the result
is the trace of (submitted batch, unprocessed items) pairs in call order,
or `none` when the loop is still running after `fuel` iterations (the
source loop has no iteration cap). -/
def putLoop (oracle : Nat → List α → List α) :
    Nat → Nat → List α → Option (List (List α × List α))
  | 0, _, [] => some []
  | 0, _, _ :: _ => none
  | _ + 1, _, [] => some []
  | fuel + 1, k, q0 :: qrest =>
    (putLoop oracle fuel (k + 1) (nextQueue oracle k (q0 :: qrest))).map
      (fun tr => ((q0 :: qrest).take 25, oracle k ((q0 :: qrest).take 25)) :: tr)

/-- Concatenation of all submitted batches of a loop trace, in submission
order. -/
def flat (tr : List (List α × List α)) : List α :=
  (tr.map Prod.fst).flatten

/-- Model of `AudioProcessing.put_dynamodb`: split the producer timestamp
at the dots — the two-name unpacking raises `ValueError` unless the split
yields exactly two pieces, before any batch write is issued — then build
the request items from the integer-seconds piece and run the batched write
loop. -/
def put_dynamodb (species0 : τ → List Char) (scoreStr : σ → List Char)
    (oracle : Nat → List Item → List Item) (fuel : Nat)
    (res : Response τ σ) (ts : List Char) :
    Except PyErr (Option (List (List Item × List Item))) :=
  match splitDot ts with
  | [sec, _] => .ok (putLoop oracle fuel 0 (requestItemsOf species0 scoreStr res sec))
  | _ => .error .valueError

/-- Observable effects of one top-level `__call__`, in program order. -/
inductive Event where
  | transcode
  | classify
  | warnRetry (code : Int)
  | sleep (secs : Nat)
  | persist
  | warnSkip (ts : List Char) (code : Int)
  | removeFile
deriving DecidableEq

/-- Whether an event is a classifier invocation. -/
def Event.isClassify : Event → Bool
  | .classify => true
  | _ => false

/-- Whether an event is a sleep of any duration. -/
def Event.isSleep : Event → Bool
  | .sleep _ => true
  | _ => false

/-- Whether an event is an entry into the persistence step. -/
def Event.isPersist : Event → Bool
  | .persist => true
  | _ => false

/-- How one top-level call ends: normal return, a raised Python exception,
or divergence of the write loop (fuel exhausted). -/
inductive Outcome where
  | ok
  | raised (e : PyErr)
  | diverged
deriving DecidableEq

/-- Event trace and outcome of one top-level call. -/
structure CallResult where
  events : List Event
  outcome : Outcome
deriving DecidableEq

/-- Tail of `__call__` once a good response `res` is at hand (lines 52–58):
enter `put_dynamodb`, then remove the artifact — the removal happens only
when persistence returns normally, since `os.remove` is not in a `finally`
block. -/
def persistAndCleanup (species0 : τ → List Char) (scoreStr : σ → List Char)
    (oracle : Nat → List Item → List Item) (fuel : Nat)
    (res : Response τ σ) (ts : List Char) (evs : List Event) : CallResult :=
  match put_dynamodb species0 scoreStr oracle fuel res ts with
  | .error e => { events := evs ++ [.persist], outcome := .raised e }
  | .ok none => { events := evs ++ [.persist], outcome := .diverged }
  | .ok (some _) => { events := evs ++ [.persist, .removeFile], outcome := .ok }

/-- Model of `AudioProcessing.__call__` on classifier responses `r1` (first
invocation) and `r2` (the response of the single retried invocation, used
only when the first is bad).  The `good_response` subscript `res['code']`
is evaluated by matching `code` directly: `none` raises `KeyError`, and
`some c` compares `c` with 200 exactly as `good_response` does. -/
def audioCall (species0 : τ → List Char) (scoreStr : σ → List Char)
    (oracle : Nat → List Item → List Item) (fuel : Nat)
    (r1 r2 : Response τ σ) (ts : List Char) : CallResult :=
  match r1.code with
  | none => { events := [.transcode, .classify], outcome := .raised .keyError }
  | some c1 =>
    if c1 = 200 then
      persistAndCleanup species0 scoreStr oracle fuel r1 ts [.transcode, .classify]
    else
      match r2.code with
      | none =>
        { events := [.transcode, .classify, .warnRetry c1, .sleep 60, .classify],
          outcome := .raised .keyError }
      | some c2 =>
        if c2 = 200 then
          persistAndCleanup species0 scoreStr oracle fuel r2 ts
            [.transcode, .classify, .warnRetry c1, .sleep 60, .classify]
        else
          { events := [.transcode, .classify, .warnRetry c1, .sleep 60, .classify]
              ++ [.warnSkip ts c2, .removeFile],
            outcome := .ok }

/-- Splitting never yields an empty piece list. -/
theorem splitDot_ne_nil (l : List Char) : splitDot l ≠ [] := by
  match l with
  | [] => simp [splitDot]
  | c :: rest =>
    simp only [splitDot]
    split
    · simp
    · split <;> simp

/-- A dot-free character list splits into the single piece that is the
list itself. -/
theorem splitDot_eq_single (l : List Char) (h : '.' ∉ l) : splitDot l = [l] := by
  induction l with
  | nil => rfl
  | cons c rest ih =>
    have hc : ¬ c = '.' := fun hc => h (hc ▸ List.mem_cons_self c rest)
    have hr : '.' ∉ rest := fun hm => h (List.mem_cons_of_mem _ hm)
    simp [splitDot, hc, ih hr]

/-- Splitting a list that starts with a dot-free piece followed by a dot
peels off that piece. -/
theorem splitDot_append_dot (s t : List Char) (h : '.' ∉ s) :
    splitDot (s ++ '.' :: t) = s :: splitDot t := by
  induction s with
  | nil => simp [splitDot]
  | cons c s' ih =>
    have hc : ¬ c = '.' := fun hc => h (hc ▸ List.mem_cons_self c s')
    have hs : '.' ∉ s' := fun hm => h (List.mem_cons_of_mem _ hm)
    simp [splitDot, hc, ih hs]

/-- The number of split pieces is one more than the number of dots. -/
theorem splitDot_length (l : List Char) :
    (splitDot l).length = l.count '.' + 1 := by
  induction l with
  | nil => simp [splitDot]
  | cons c rest ih =>
    by_cases hc : c = '.'
    · subst hc
      simp [splitDot, ih, List.count_cons]
    · obtain ⟨p, ps, hps⟩ : ∃ p ps, splitDot rest = p :: ps := by
        cases hsp : splitDot rest with
        | nil => exact absurd hsp (splitDot_ne_nil rest)
        | cons p ps => exact ⟨p, ps, rfl⟩
      rw [hps] at ih
      simp only [List.length_cons] at ih
      simp [splitDot, hc, hps, List.count_cons]
      omega

/-- When the store reports nothing unprocessed from call `k` on, the write
loop drains within `q.length` iterations and submits exactly the queue, in
order. -/
theorem putLoop_of_no_unprocessed (oracle : Nat → List α → List α) :
    ∀ fuel k, (∀ j b, k ≤ j → oracle j b = []) → ∀ q : List α,
      q.length ≤ fuel → ∃ tr, putLoop oracle fuel k q = some tr ∧ flat tr = q := by
  intro fuel
  induction fuel with
  | zero =>
    intro k _h q hq
    have hqnil : q = [] := List.length_eq_zero.mp (Nat.le_zero.mp hq)
    subst hqnil
    exact ⟨[], rfl, rfl⟩
  | succ f ih =>
    intro k h q hq
    match q with
    | [] => exact ⟨[], rfl, rfl⟩
    | q0 :: qrest =>
      have hk : oracle k ((q0 :: qrest).take 25) = [] := h k _ (Nat.le_refl k)
      have hnext : nextQueue oracle k (q0 :: qrest) = (q0 :: qrest).drop 25 := by
        unfold nextQueue
        rw [hk, List.append_nil]
      have hlen : ((q0 :: qrest).drop 25).length ≤ f := by
        simp only [List.length_drop, List.length_cons]
        simp only [List.length_cons] at hq
        omega
      obtain ⟨tr, htr, hflat⟩ :=
        ih (k + 1) (fun j b hj => h j b (by omega)) _ (hnext ▸ hlen)
      refine ⟨((q0 :: qrest).take 25, oracle k ((q0 :: qrest).take 25)) :: tr, ?_, ?_⟩
      · simp [putLoop, htr]
      · simp only [flat, List.map_cons, List.flatten_cons, hk]
        simp only [flat] at hflat
        rw [hnext] at hflat
        rw [hflat]
        exact List.take_append_drop 25 (q0 :: qrest)

/-- Under a store that rejects every submitted item, the loop never
terminates: no amount of fuel suffices on a non-empty queue. -/
theorem putLoop_reject_all (fuel k : Nat) (q : List α) (hq : q ≠ []) :
    putLoop (fun _ b => b) fuel k q = none := by
  induction fuel generalizing k q with
  | zero =>
    match q with
    | [] => exact absurd rfl hq
    | q0 :: qrest => rfl
  | succ f ih =>
    match q with
    | [] => exact absurd rfl hq
    | q0 :: qrest =>
      have hne : nextQueue (fun _ b => b) k (q0 :: qrest) ≠ [] := by
        intro hcon
        have hlen := congrArg List.length hcon
        simp only [nextQueue, List.length_append, List.length_drop,
          List.length_take, List.length_cons, List.length_nil] at hlen
        omega
      simp only [putLoop]
      rw [ih (k + 1) _ hne]
      rfl

/-- Conservation along any terminating run: when the store only ever
reports back items of the submitted batch, the per-call accepted items
(batch minus unprocessed, as multisets) sum to exactly the initial queue. -/
theorem putLoop_multiset_sum [DecidableEq α] (oracle : Nat → List α → List α)
    (h : ∀ k b, List.Sublist (oracle k b) b) :
    ∀ fuel k (q : List α) tr, putLoop oracle fuel k q = some tr →
      (tr.map (fun p => ((p.1 : Multiset α) - (p.2 : Multiset α)))).sum
        = (q : Multiset α) := by
  intro fuel
  induction fuel with
  | zero =>
    intro k q tr htr
    match q with
    | [] =>
      simp only [putLoop, Option.some.injEq] at htr
      subst htr
      simp
    | q0 :: qrest => simp [putLoop] at htr
  | succ f ih =>
    intro k q tr htr
    match q with
    | [] =>
      simp only [putLoop, Option.some.injEq] at htr
      subst htr
      simp
    | q0 :: qrest =>
      simp only [putLoop, Option.map_eq_some'] at htr
      obtain ⟨tr', htr', hf⟩ := htr
      subst hf
      have hsum := ih (k + 1) _ tr' htr'
      have hle : ((oracle k ((q0 :: qrest).take 25) : List α) : Multiset α)
          ≤ (((q0 :: qrest).take 25 : List α) : Multiset α) :=
        Multiset.coe_le.mpr (h k _).subperm
      simp only [List.map_cons, List.sum_cons]
      rw [hsum]
      simp only [nextQueue]
      rw [← Multiset.coe_add]
      conv_rhs => rw [← List.take_append_drop 25 (q0 :: qrest), ← Multiset.coe_add]
      rw [add_comm ((((q0 :: qrest).drop 25 : List α) : Multiset α)) _, ← add_assoc,
        tsub_add_cancel_of_le hle]

/-- C10: a producer-timestamp character list whose dot count differs from
one makes `put_dynamodb` raise `ValueError` from the two-name unpacking of
the split; the error branch returns before the write loop is entered, so
no batch write is issued and the table store is left unchanged. -/
theorem malformed_timestamp_raises_valueerror
    {τ σ : Type} (species0 : τ → List Char) (scoreStr : σ → List Char)
    (oracle : Nat → List Item → List Item) (fuel : Nat)
    (res : Response τ σ) (ts : List Char) (hts : ts.count '.' ≠ 1) :
    put_dynamodb species0 scoreStr oracle fuel res ts = .error .valueError := by
  have hlen : (splitDot ts).length ≠ 2 := by
    rw [splitDot_length]
    omega
  rcases hsp : splitDot ts with _ | ⟨a, _ | ⟨b, _ | ⟨c, rest⟩⟩⟩
  · simp [put_dynamodb, hsp]
  · simp [put_dynamodb, hsp]
  · exact absurd (by rw [hsp]; rfl) hlen
  · simp [put_dynamodb, hsp]

/-- C10 witness: a timestamp with no dot at all. -/
theorem malformed_timestamp_raises_valueerror_witness :
    ([ '1', '7', '0' ] : List Char).count '.' ≠ 1 ∧
    put_dynamodb (fun _ : Nat => [ 'x' ]) (fun _ : Nat => [ '0' ])
      (fun _ _ => []) 3 ⟨some 200, [(0, 0, 0)]⟩ [ '1', '7', '0' ]
      = .error .valueError :=
  ⟨by decide,
   malformed_timestamp_raises_valueerror _ _ _ _ _ _ (by decide)⟩

/-- C8: for a producer timestamp of the form seconds-dot-subseconds (both
pieces dot-free), `put_dynamodb` keeps only the integer-seconds piece: the
write loop runs on the items derived with that piece, every derived item
carries it as its time field (truncation, the subsecond piece is simply
discarded), and hence all records of the call share the same timestamp. -/
theorem timestamp_truncated_to_seconds
    {τ σ : Type} (species0 : τ → List Char) (scoreStr : σ → List Char)
    (oracle : Nat → List Item → List Item) (fuel : Nat) (res : Response τ σ)
    (sec sub : List Char) (hsec : '.' ∉ sec) (hsub : '.' ∉ sub) :
    put_dynamodb species0 scoreStr oracle fuel res (sec ++ '.' :: sub)
      = .ok (putLoop oracle fuel 0 (requestItemsOf species0 scoreStr res sec)) ∧
    ∀ it ∈ requestItemsOf species0 scoreStr res sec, it.time = sec := by
  constructor
  · unfold put_dynamodb
    rw [splitDot_append_dot sec sub hsec, splitDot_eq_single sub hsub]
  · intro it hit
    simp only [requestItemsOf, List.mem_map] at hit
    obtain ⟨e, _, rfl⟩ := hit
    rfl

/-- C8 witness: timestamp 1700000000.123456 persists time 1700000000 on a
one-result response. -/
theorem timestamp_truncated_to_seconds_witness :
    put_dynamodb (fun _ : Nat => [ 'x' ]) (fun _ : Nat => [ '0' ])
      (fun _ _ => []) 1 ⟨some 200, [(0, 0, 0)]⟩
      ([ '1', '7', '0', '0', '0', '0', '0', '0', '0', '0' ] ++ '.' ::
        [ '1', '2', '3', '4', '5', '6' ])
      = .ok (putLoop (fun _ _ => []) 1 0
          (requestItemsOf (fun _ : Nat => [ 'x' ]) (fun _ : Nat => [ '0' ])
            ⟨some 200, [(0, 0, 0)]⟩
            [ '1', '7', '0', '0', '0', '0', '0', '0', '0', '0' ])) ∧
    ∀ it ∈ requestItemsOf (fun _ : Nat => [ 'x' ]) (fun _ : Nat => [ '0' ])
        ⟨some 200, [(0, 0, 0)]⟩
        [ '1', '7', '0', '0', '0', '0', '0', '0', '0', '0' ],
      it.time = [ '1', '7', '0', '0', '0', '0', '0', '0', '0', '0' ] :=
  timestamp_truncated_to_seconds _ _ _ _ _ _ _ (by decide) (by decide)

/-- C9: a classifier response payload without a code entry makes
`good_response` raise `KeyError`, and the top-level call therefore raises
`KeyError` instead of entering the retry or skip branch. -/
theorem missing_code_key_raises_keyerror
    {τ σ : Type} (species0 : τ → List Char) (scoreStr : σ → List Char)
    (oracle : Nat → List Item → List Item) (fuel : Nat)
    (r1 r2 : Response τ σ) (ts : List Char) (h : r1.code = none) :
    good_response r1 = .error .keyError ∧
    (audioCall species0 scoreStr oracle fuel r1 r2 ts).outcome
      = .raised .keyError := by
  constructor
  · unfold good_response
    rw [h]
  · unfold audioCall
    rw [h]

/-- C9 witness: a concrete codeless response. -/
theorem missing_code_key_raises_keyerror_witness :
    good_response (⟨none, []⟩ : Response Nat Nat) = .error .keyError ∧
    (audioCall (fun _ : Nat => [ 'x' ]) (fun _ : Nat => [ '0' ])
      (fun _ _ => []) 3 ⟨none, []⟩ ⟨some 200, []⟩ [ '1', '.', '2' ]).outcome
      = .raised .keyError :=
  missing_code_key_raises_keyerror _ _ _ _ _ _ _ rfl

/-- C1: along any terminating run of the batched persistence loop, with
the store only ever reporting back items of the submitted batch, the
accepted items of all batch-write calls (submitted batch minus re-queued
unprocessed items, as multisets) sum to exactly the initial records:
nothing is dropped and nothing is duplicated.  Termination of the run is
the hypothesis that the store eventually accepts every item. -/
theorem records_conserved_across_batches
    {α : Type} [DecidableEq α] (oracle : Nat → List α → List α)
    (hsub : ∀ k b, List.Sublist (oracle k b) b)
    (fuel : Nat) (records : List α) (tr : List (List α × List α))
    (htr : putLoop oracle fuel 0 records = some tr) :
    (tr.map (fun p => ((p.1 : Multiset α) - (p.2 : Multiset α)))).sum
      = (records : Multiset α) :=
  putLoop_multiset_sum oracle hsub fuel 0 records tr htr

/-- C1 witness: three records, the store rejects the first item of the
first batch once; the two calls net exactly the three records. -/
theorem records_conserved_across_batches_witness :
    (([([10, 20, 30], [10]), ([10], [])] : List (List Nat × List Nat)).map
      (fun p => ((p.1 : Multiset Nat) - (p.2 : Multiset Nat)))).sum
      = (([10, 20, 30] : List Nat) : Multiset Nat) :=
  records_conserved_across_batches
    (fun k b => if k = 0 then b.take 1 else [])
    (fun k b => by
      match k with
      | 0 => simpa using List.take_sublist 1 b
      | j + 1 => simp)
    2 [10, 20, 30] [([10, 20, 30], [10]), ([10], [])] (by decide)

/-- C2: the loop ends exactly when the queue drains.  First conjunct: when
the store reports nothing unprocessed, the loop terminates within
`q.length` iterations having submitted every record in order.  Second
conjunct: the loop has no iteration cap — under sustained rejection (the
store reporting every submitted batch unprocessed, i.e. the same items
failing forever) no amount of fuel completes a non-empty queue. -/
theorem loop_terminates_iff_queue_drains :
    (∀ (α : Type) (fuel k : Nat) (q : List α), q.length ≤ fuel →
      ∃ tr, putLoop (fun _ _ => []) fuel k q = some tr ∧ flat tr = q) ∧
    (∀ (α : Type) (fuel k : Nat) (q : List α), q ≠ [] →
      putLoop (fun _ b => b) fuel k q = none) := by
  constructor
  · intro α fuel k q hq
    exact putLoop_of_no_unprocessed (fun _ _ => []) fuel k (fun _ _ _ => rfl) q hq
  · intro α fuel k q hq
    exact putLoop_reject_all fuel k q hq

/-- C2 witness: a 3-record queue drains with fuel 3 under full acceptance;
a single record is never drained, for instance at fuel 7, under full
rejection. -/
theorem loop_terminates_iff_queue_drains_witness :
    (∃ tr, putLoop (fun _ _ => []) 3 0 [1, 2, 3] = some tr ∧
      flat tr = ([1, 2, 3] : List Nat)) ∧
    putLoop (fun _ b => b) 7 0 [(9 : Nat)] = none :=
  ⟨loop_terminates_iff_queue_drains.1 Nat 3 0 [1, 2, 3] (by decide),
   loop_terminates_iff_queue_drains.2 Nat 7 0 [9] (by decide)⟩

/-- C3: unprocessed items are re-queued at the tail, not the head.
(i) After any batch-write call the untouched remainder of the queue is a
prefix of the new queue and the just-reported unprocessed items are its
suffix.  (ii) When call 0 reports the items `u` of the first batch
unprocessed and the store accepts everything afterwards, the run's full
submission sequence is the original queue followed by `u`: every retried
copy is submitted strictly after every originally-queued item, in
particular after all never-attempted items.  (iii) In the concrete
50-record scenario with items 3 and 7 of the first batch unprocessed, they
come back as the whole third batch, strictly after the second batch has
attempted all originally-unattempted records 25..49. -/
theorem unprocessed_requeued_at_tail :
    (∀ (α : Type) (oracle : Nat → List α → List α) (k : Nat) (q : List α),
      q.drop 25 <+: nextQueue oracle k q ∧
      oracle k (q.take 25) <:+ nextQueue oracle k q) ∧
    (∀ (α : Type) (u q : List α) (fuel : Nat), q ≠ [] →
      (q.drop 25 ++ u).length ≤ fuel →
      ∃ tr, putLoop (fun j _ => if j = 0 then u else []) (fuel + 1) 0 q
          = some tr ∧ flat tr = q ++ u) ∧
    Option.map (List.map Prod.fst)
      (putLoop (fun j _ => if j = 0 then [3, 7] else ([] : List Nat)) 3 0
        (List.range 50))
      = some [List.range 25, List.range' 25 25, [3, 7]] := by
  refine ⟨?_, ?_, by decide⟩
  · intro α oracle k q
    exact ⟨⟨oracle k (q.take 25), rfl⟩, ⟨q.drop 25, rfl⟩⟩
  · intro α u q fuel hq hlen
    match q with
    | [] => exact absurd rfl hq
    | q0 :: qrest =>
      have h1 : ∀ j (b : List α), 1 ≤ j → (if j = 0 then u else []) = [] := by
        intro j b hj
        have hj0 : ¬ j = 0 := by omega
        simp [hj0]
      have hnext : nextQueue (fun j (_ : List α) => if j = 0 then u else []) 0
          (q0 :: qrest) = (q0 :: qrest).drop 25 ++ u := rfl
      obtain ⟨tr, htr, hflat⟩ :=
        putLoop_of_no_unprocessed (fun j _ => if j = 0 then u else []) fuel 1 h1
          (nextQueue (fun j _ => if j = 0 then u else []) 0 (q0 :: qrest))
          (by rw [hnext]; simpa using hlen)
      refine ⟨((q0 :: qrest).take 25, u) :: tr, ?_, ?_⟩
      · simp only [putLoop, htr, Option.map_some']
        simp
      · simp only [flat, List.map_cons, List.flatten_cons]
        simp only [flat] at hflat
        rw [hflat, hnext, ← List.append_assoc, List.take_append_drop]

/-- C3 witness for the universally-quantified parts: a two-record queue
whose first call rejects the second record; the rejected copy is
resubmitted after both original records. -/
theorem unprocessed_requeued_at_tail_witness :
    (([1, 99] : List Nat).drop 25
        <+: nextQueue (fun _ _ => [(5 : Nat)]) 0 [1, 99] ∧
      (fun (_ : Nat) (_ : List Nat) => [(5 : Nat)]) 0 (([1, 99] : List Nat).take 25)
        <:+ nextQueue (fun _ _ => [(5 : Nat)]) 0 [1, 99]) ∧
    (∃ tr, putLoop (fun j _ => if j = 0 then [99] else []) (3 + 1) 0
        [(1 : Nat), 99] = some tr ∧ flat tr = [1, 99] ++ [99]) :=
  ⟨unprocessed_requeued_at_tail.1 Nat (fun _ _ => [5]) 0 [1, 99],
   unprocessed_requeued_at_tail.2.1 Nat [99] [1, 99] 3 (by decide) (by decide)⟩

/-- C6: each iteration removes exactly the first up-to-25 queued items as
the current batch, leaving the remainder queued in order: the head of any
successful trace on a non-empty queue is the 25-prefix of the queue (of
length min 25 n) paired with the store's answer for it, and prefix plus
remainder reassemble the queue.  Concretely, 30 records with no
unprocessed items take exactly two batch-write calls, of sizes 25 and 5,
submitting the records in their original order. -/
theorem batch_is_first_25_of_queue :
    (∀ (α : Type) (oracle : Nat → List α → List α) (fuel k : Nat)
      (q : List α) (tr : List (List α × List α)),
      putLoop oracle (fuel + 1) k q = some tr → q ≠ [] →
      ∃ tr', tr = (q.take 25, oracle k (q.take 25)) :: tr' ∧
        (q.take 25).length = min 25 q.length ∧
        q.take 25 ++ q.drop 25 = q) ∧
    Option.map List.length
      (putLoop (fun _ _ => ([] : List Nat)) 2 0 (List.range 30)) = some 2 ∧
    Option.map (List.map (fun p => p.1.length))
      (putLoop (fun _ _ => ([] : List Nat)) 2 0 (List.range 30))
      = some [25, 5] ∧
    Option.map flat (putLoop (fun _ _ => ([] : List Nat)) 2 0 (List.range 30))
      = some (List.range 30) := by
  refine ⟨?_, by decide, by decide, by decide⟩
  intro α oracle fuel k q tr htr hq
  match q with
  | [] => exact absurd rfl hq
  | q0 :: qrest =>
    simp only [putLoop, Option.map_eq_some'] at htr
    obtain ⟨tr', _, hf⟩ := htr
    exact ⟨tr', hf.symm, by rw [List.length_take], List.take_append_drop 25 _⟩

/-- C6 witness for the universally-quantified part: a two-record queue and
a fully-accepting store. -/
theorem batch_is_first_25_of_queue_witness :
    ∃ tr', ([(([5, 6] : List Nat), ([] : List Nat))] : List (List Nat × List Nat))
        = (([5, 6] : List Nat).take 25,
            (fun (_ : Nat) (_ : List Nat) => ([] : List Nat)) 0
              (([5, 6] : List Nat).take 25)) :: tr' ∧
      (([5, 6] : List Nat).take 25).length = min 25 ([5, 6] : List Nat).length ∧
      ([5, 6] : List Nat).take 25 ++ ([5, 6] : List Nat).drop 25 = [5, 6] :=
  batch_is_first_25_of_queue.1 Nat (fun _ _ => []) 0 0 [5, 6] [([5, 6], [])]
    (by decide) (by decide)

/-- C4: retry control flow of the top-level call.  (a) A first response
with code 200 enters persistence exactly once, with no sleep and no second
classifier invocation.  (b) A bad first response logs a warning carrying
its code, sleeps 60 seconds and issues exactly one further classifier
invocation, in that order, so the call performs exactly two classifier
invocations in total.  (c) When both responses are bad, persistence is
never entered, a warning naming the fragment's producer timestamp is
logged, and the call still returns normally with the artifact removal as
its final action. -/
theorem classifier_retry_control_flow
    {τ σ : Type} (species0 : τ → List Char) (scoreStr : σ → List Char)
    (oracle : Nat → List Item → List Item) (fuel : Nat)
    (r1 r2 : Response τ σ) (ts : List Char) :
    (r1.code = some 200 →
      ((audioCall species0 scoreStr oracle fuel r1 r2 ts).events.countP
          Event.isPersist = 1 ∧
        (audioCall species0 scoreStr oracle fuel r1 r2 ts).events.countP
          Event.isSleep = 0 ∧
        (audioCall species0 scoreStr oracle fuel r1 r2 ts).events.countP
          Event.isClassify = 1)) ∧
    (∀ c1 : Int, r1.code = some c1 → c1 ≠ 200 →
      ((∃ rest, (audioCall species0 scoreStr oracle fuel r1 r2 ts).events
          = [.transcode, .classify, .warnRetry c1, .sleep 60, .classify]
            ++ rest) ∧
        (audioCall species0 scoreStr oracle fuel r1 r2 ts).events.countP
          Event.isClassify = 2)) ∧
    (∀ c1 c2 : Int, r1.code = some c1 → c1 ≠ 200 →
      r2.code = some c2 → c2 ≠ 200 →
      ((audioCall species0 scoreStr oracle fuel r1 r2 ts).events.countP
          Event.isPersist = 0 ∧
        Event.warnSkip ts c2
          ∈ (audioCall species0 scoreStr oracle fuel r1 r2 ts).events ∧
        (audioCall species0 scoreStr oracle fuel r1 r2 ts).outcome = .ok ∧
        (audioCall species0 scoreStr oracle fuel r1 r2 ts).events.getLast?
          = some .removeFile)) := by
  refine ⟨?_, ?_, ?_⟩
  · intro h200
    have hcall : audioCall species0 scoreStr oracle fuel r1 r2 ts
        = persistAndCleanup species0 scoreStr oracle fuel r1 ts
            [.transcode, .classify] := by
      simp [audioCall, h200]
    rw [hcall]
    unfold persistAndCleanup
    rcases hpd : put_dynamodb species0 scoreStr oracle fuel r1 ts with e | o
    · exact ⟨rfl, rfl, rfl⟩
    · rcases o with _ | tr
      · exact ⟨rfl, rfl, rfl⟩
      · exact ⟨rfl, rfl, rfl⟩
  · intro c1 h1 hne
    rcases h2 : r2.code with _ | c2
    · have hcall : audioCall species0 scoreStr oracle fuel r1 r2 ts
          = { events := [.transcode, .classify, .warnRetry c1, .sleep 60,
                .classify],
              outcome := .raised .keyError } := by
        simp [audioCall, h1, hne, h2]
      rw [hcall]
      exact ⟨⟨[], (List.append_nil _).symm⟩, rfl⟩
    · by_cases hc2 : c2 = 200
      · have hcall : audioCall species0 scoreStr oracle fuel r1 r2 ts
            = persistAndCleanup species0 scoreStr oracle fuel r2 ts
                [.transcode, .classify, .warnRetry c1, .sleep 60, .classify] := by
          simp [audioCall, h1, hne, h2, hc2]
        rw [hcall]
        unfold persistAndCleanup
        rcases hpd : put_dynamodb species0 scoreStr oracle fuel r2 ts with e | o
        · exact ⟨⟨[.persist], rfl⟩, rfl⟩
        · rcases o with _ | tr
          · exact ⟨⟨[.persist], rfl⟩, rfl⟩
          · exact ⟨⟨[.persist, .removeFile], rfl⟩, rfl⟩
      · have hcall : audioCall species0 scoreStr oracle fuel r1 r2 ts
            = { events := [.transcode, .classify, .warnRetry c1, .sleep 60,
                  .classify, .warnSkip ts c2, .removeFile],
                outcome := .ok } := by
          simp [audioCall, h1, hne, h2, hc2]
        rw [hcall]
        exact ⟨⟨[.warnSkip ts c2, .removeFile], rfl⟩, rfl⟩
  · intro c1 c2 h1 hne1 h2 hne2
    have hcall : audioCall species0 scoreStr oracle fuel r1 r2 ts
        = { events := [.transcode, .classify, .warnRetry c1, .sleep 60,
              .classify, .warnSkip ts c2, .removeFile],
            outcome := .ok } := by
      simp [audioCall, h1, hne1, h2, hne2]
    rw [hcall]
    refine ⟨rfl, ?_, rfl, rfl⟩
    simp

/-- C4 witness: part (a) at a good first response; parts (b) and (c) at a
call whose two responses report codes 500 and 404. -/
theorem classifier_retry_control_flow_witness :
    ((audioCall (fun _ : Nat => [ 'x' ]) (fun _ : Nat => [ '0' ])
        (fun _ _ => []) 1 ⟨some 200, []⟩ ⟨some 200, []⟩
        [ '1', '.', '2' ]).events.countP Event.isPersist = 1 ∧
      (audioCall (fun _ : Nat => [ 'x' ]) (fun _ : Nat => [ '0' ])
        (fun _ _ => []) 1 ⟨some 200, []⟩ ⟨some 200, []⟩
        [ '1', '.', '2' ]).events.countP Event.isSleep = 0 ∧
      (audioCall (fun _ : Nat => [ 'x' ]) (fun _ : Nat => [ '0' ])
        (fun _ _ => []) 1 ⟨some 200, []⟩ ⟨some 200, []⟩
        [ '1', '.', '2' ]).events.countP Event.isClassify = 1) ∧
    ((∃ rest, (audioCall (fun _ : Nat => [ 'x' ]) (fun _ : Nat => [ '0' ])
        (fun _ _ => []) 1 ⟨some 500, []⟩ ⟨some 404, []⟩
        [ '1', '.', '2' ]).events
        = [.transcode, .classify, .warnRetry 500, .sleep 60, .classify]
          ++ rest) ∧
      (audioCall (fun _ : Nat => [ 'x' ]) (fun _ : Nat => [ '0' ])
        (fun _ _ => []) 1 ⟨some 500, []⟩ ⟨some 404, []⟩
        [ '1', '.', '2' ]).events.countP Event.isClassify = 2) ∧
    ((audioCall (fun _ : Nat => [ 'x' ]) (fun _ : Nat => [ '0' ])
        (fun _ _ => []) 1 ⟨some 500, []⟩ ⟨some 404, []⟩
        [ '1', '.', '2' ]).events.countP Event.isPersist = 0 ∧
      Event.warnSkip [ '1', '.', '2' ] 404
        ∈ (audioCall (fun _ : Nat => [ 'x' ]) (fun _ : Nat => [ '0' ])
          (fun _ _ => []) 1 ⟨some 500, []⟩ ⟨some 404, []⟩
          [ '1', '.', '2' ]).events ∧
      (audioCall (fun _ : Nat => [ 'x' ]) (fun _ : Nat => [ '0' ])
        (fun _ _ => []) 1 ⟨some 500, []⟩ ⟨some 404, []⟩
        [ '1', '.', '2' ]).outcome = .ok ∧
      (audioCall (fun _ : Nat => [ 'x' ]) (fun _ : Nat => [ '0' ])
        (fun _ _ => []) 1 ⟨some 500, []⟩ ⟨some 404, []⟩
        [ '1', '.', '2' ]).events.getLast? = some .removeFile) :=
  ⟨(classifier_retry_control_flow (fun _ : Nat => [ 'x' ])
      (fun _ : Nat => [ '0' ]) (fun _ _ => []) 1 ⟨some 200, []⟩
      ⟨some 200, []⟩ [ '1', '.', '2' ]).1 rfl,
   (classifier_retry_control_flow (fun _ : Nat => [ 'x' ])
      (fun _ : Nat => [ '0' ]) (fun _ _ => []) 1 ⟨some 500, []⟩
      ⟨some 404, []⟩ [ '1', '.', '2' ]).2.1 500 rfl (by decide),
   (classifier_retry_control_flow (fun _ : Nat => [ 'x' ])
      (fun _ : Nat => [ '0' ]) (fun _ _ => []) 1 ⟨some 500, []⟩
      ⟨some 404, []⟩ [ '1', '.', '2' ]).2.2 500 404 rfl (by decide) rfl
      (by decide)⟩

/-- C5 counterexample: the claim that the artifact is removed on every
exit path fails on the code, because `os.remove` is the last statement of
`__call__` and not in a finally block.  With a good first response and a
dotless producer timestamp, `put_dynamodb` raises `ValueError`, the call
exits with that exception, and no remove-file event occurs. -/
theorem artifact_removal_skipped_on_exception :
    (audioCall (fun _ : Nat => [ 'x' ]) (fun _ : Nat => [ '0' ])
      (fun _ _ => []) 5 ⟨some 200, [(0, 0, 0)]⟩ ⟨some 200, []⟩
      [ '1', '7' ]).outcome = .raised .valueError ∧
    Event.removeFile ∉ (audioCall (fun _ : Nat => [ 'x' ])
      (fun _ : Nat => [ '0' ]) (fun _ _ => []) 5 ⟨some 200, [(0, 0, 0)]⟩
      ⟨some 200, []⟩ [ '1', '7' ]).events := by
  decide

/-- C5 amended: the artifact is removed, as the final action, on every
normally-returning exit path of the top-level call — successful
persistence as well as the persistence-skipped path after two bad
responses; when the call raises or the write loop never drains, no
removal happens. -/
theorem artifact_removed_on_normal_return
    {τ σ : Type} (species0 : τ → List Char) (scoreStr : σ → List Char)
    (oracle : Nat → List Item → List Item) (fuel : Nat)
    (r1 r2 : Response τ σ) (ts : List Char)
    (hok : (audioCall species0 scoreStr oracle fuel r1 r2 ts).outcome = .ok) :
    (audioCall species0 scoreStr oracle fuel r1 r2 ts).events.getLast?
      = some .removeFile := by
  rcases h1 : r1.code with _ | c1
  · have hcall : audioCall species0 scoreStr oracle fuel r1 r2 ts
        = { events := [.transcode, .classify], outcome := .raised .keyError } := by
      simp [audioCall, h1]
    rw [hcall] at hok
    simp at hok
  · by_cases hc1 : c1 = 200
    · have hcall : audioCall species0 scoreStr oracle fuel r1 r2 ts
          = persistAndCleanup species0 scoreStr oracle fuel r1 ts
              [.transcode, .classify] := by
        simp [audioCall, h1, hc1]
      rw [hcall] at hok ⊢
      unfold persistAndCleanup at hok ⊢
      rcases hpd : put_dynamodb species0 scoreStr oracle fuel r1 ts with e | o
      · rw [hpd] at hok
        simp at hok
      · rw [hpd] at hok
        rcases o with _ | tr
        · simp at hok
        · rfl
    · rcases h2 : r2.code with _ | c2
      · have hcall : audioCall species0 scoreStr oracle fuel r1 r2 ts
            = { events := [.transcode, .classify, .warnRetry c1, .sleep 60,
                  .classify],
                outcome := .raised .keyError } := by
          simp [audioCall, h1, hc1, h2]
        rw [hcall] at hok
        simp at hok
      · by_cases hc2 : c2 = 200
        · have hcall : audioCall species0 scoreStr oracle fuel r1 r2 ts
              = persistAndCleanup species0 scoreStr oracle fuel r2 ts
                  [.transcode, .classify, .warnRetry c1, .sleep 60,
                    .classify] := by
            simp [audioCall, h1, hc1, h2, hc2]
          rw [hcall] at hok ⊢
          unfold persistAndCleanup at hok ⊢
          rcases hpd : put_dynamodb species0 scoreStr oracle fuel r2 ts with e | o
          · rw [hpd] at hok
            simp at hok
          · rw [hpd] at hok
            rcases o with _ | tr
            · simp at hok
            · rfl
        · have hcall : audioCall species0 scoreStr oracle fuel r1 r2 ts
              = { events := [.transcode, .classify, .warnRetry c1, .sleep 60,
                    .classify, .warnSkip ts c2, .removeFile],
                  outcome := .ok } := by
            simp [audioCall, h1, hc1, h2, hc2]
          rw [hcall]
          rfl

/-- C5 amended witness: the persistence-skipped path of a call with two
bad responses ends with the artifact removal. -/
theorem artifact_removed_on_normal_return_witness :
    (audioCall (fun _ : Nat => [ 'x' ]) (fun _ : Nat => [ '0' ])
      (fun _ _ => []) 1 ⟨some 500, []⟩ ⟨some 404, []⟩
      [ '1', '.', '2' ]).events.getLast? = some .removeFile :=
  artifact_removed_on_normal_return (fun _ : Nat => [ 'x' ])
    (fun _ : Nat => [ '0' ]) (fun _ _ => []) 1 ⟨some 500, []⟩
    ⟨some 404, []⟩ [ '1', '.', '2' ] (by decide)
